import Mathlib

/-!
Verification of the J.A.R.V.I.S. session/streaming orchestrator
(src/App.tsx, together with the types in types.ts).

This file is a shallow embedding of the orchestration logic: React state and
refs become fields of explicit state structures, event handlers become
functions from state to state together with a list of emitted effects, the
browser timer table becomes an explicit list of pending timers, and wall-clock
instants (`Date.now()`, `AudioContext.currentTime`) are threaded as explicit
parameters.  Audio clock times and gains are modelled as rationals, epoch
timestamps as naturals (milliseconds).
-/

namespace Jarvis

/-- `ConnectionState` from types.ts. -/
inductive ConnectionState where
  | DISCONNECTED
  | CONNECTING
  | CONNECTED
  | ERROR
deriving DecidableEq, Repr

/-- `MessageLog` from types.ts.  The `timestamp : Date` field is modelled as
milliseconds since the epoch; the optional `isReport` flag defaults to
`false` when absent. -/
structure MessageLog where
  id : String
  sender : String
  text : String
  timestamp : Nat
  isReport : Bool := false
deriving DecidableEq, Repr

/-! ## Transcript/Log Store persistence (App.tsx lines 116–129 and 164–166)

`JSON.stringify(logs)` serializes each entry field-for-field, with the `Date`
timestamp rendered by `Date.prototype.toJSON` as its ISO-8601 string; on load
the timestamp is reconstructed with `new Date(log.timestamp)`.  The ISO string
is modelled by its information content: the calendar date part by the day
count since the epoch, and the `HH:MM:SS.mmm` part by its hour, minute,
second and millisecond fields. -/

/-- The serialized form of a `Date`: the fields of its ISO-8601 rendering
(date part as days since epoch, then hour, minute, second, millisecond). -/
structure IsoTime where
  day : Nat
  hour : Nat
  minute : Nat
  second : Nat
  milli : Nat
deriving DecidableEq, Repr

/-- `Date.prototype.toJSON`: split an epoch-millisecond count into the fields
of its ISO-8601 rendering. -/
def isoOfMs (ms : Nat) : IsoTime where
  day := ms / 86400000
  hour := ms % 86400000 / 3600000
  minute := ms % 3600000 / 60000
  second := ms % 60000 / 1000
  milli := ms % 1000

/-- `new Date(isoString).getTime()`: recombine the ISO fields into an
epoch-millisecond count. -/
def msOfIso (t : IsoTime) : Nat :=
  t.day * 86400000 + t.hour * 3600000 + t.minute * 60000 + t.second * 1000 + t.milli

/-- One element of the JSON array stored under the `jarvis_logs` key: the
fields of a `MessageLog` with the timestamp in serialized form. -/
structure StoredLog where
  id : String
  sender : String
  text : String
  timestamp : IsoTime
  isReport : Bool
deriving DecidableEq, Repr

/-- Serialization of one log entry inside `JSON.stringify(logs)`. -/
def serializeLog (l : MessageLog) : StoredLog where
  id := l.id
  sender := l.sender
  text := l.text
  timestamp := isoOfMs l.timestamp
  isReport := l.isReport

/-- The load-time mapping `(log) => ({ ...log, timestamp: new Date(log.timestamp) })`
(App.tsx lines 120–123). -/
def deserializeLog (r : StoredLog) : MessageLog where
  id := r.id
  sender := r.sender
  text := r.text
  timestamp := msOfIso r.timestamp
  isReport := r.isReport

/-- The `jarvis_logs` slot of `window.localStorage` (`null` when the key was
never written). -/
structure LocalStore where
  jarvisLogs : Option (List StoredLog)
deriving DecidableEq, Repr

/-- The persist effect `localStorage.setItem('jarvis_logs', JSON.stringify(logs))`
(App.tsx lines 164–166): the whole array is rewritten on every mutation. -/
def persistLogs (logs : List MessageLog) : LocalStore where
  jarvisLogs := some (logs.map serializeLog)

/-- The `useState` initializer (App.tsx lines 116–129): parse the stored
array, reconstructing each timestamp; an absent key yields `[]`. -/
def loadLogs (st : LocalStore) : List MessageLog :=
  match st.jarvisLogs with
  | some rs => rs.map deserializeLog
  | none => []

/-- One `setLogs(prev => [...prev, e])` followed by the persist effect that
the `useEffect` on `logs` runs. -/
def appendLog (s : List MessageLog × LocalStore) (e : MessageLog) : List MessageLog × LocalStore :=
  ((s.1 ++ [e]), persistLogs (s.1 ++ [e]))

/-! ## Local Voice-Command Interceptor (App.tsx lines 195–226) -/

/-- Does the character list `hay` start with `needle`? -/
def charsLead : List Char → List Char → Bool
  | [], _ => true
  | _ :: _, [] => false
  | a :: as, b :: bs => a == b && charsLead as bs

/-- Does the character list `hay` contain `needle` as a contiguous run? -/
def charsContain (hay needle : List Char) : Bool :=
  match hay with
  | [] => charsLead needle []
  | _ :: t => charsLead needle hay || charsContain t needle

/-- JavaScript `String.prototype.includes`. -/
def jsIncludes (s sub : String) : Bool :=
  charsContain s.toList sub.toList

/-- JavaScript `String.prototype.toLowerCase` (character-wise lowering). -/
def jsToLower (s : String) : String :=
  String.mk (s.data.map Char.toLower)

/-- The local side effects a recognized voice command performs. -/
inductive CmdAction where
  | toggleMuteCmd
  | startVideoCmd
  | stopVideoCmd
  | disconnectCmd
deriving DecidableEq, Repr

/-- The state read and written by `checkLocalCommands`: the
`lastProcessedCommandRef` debounce timestamp, the mute and video flags it
consults or toggles, and the transcript log. -/
structure CmdState where
  lastProcessedCommand : Nat
  isMuted : Bool
  isVideoEnabled : Bool
  logs : List MessageLog
deriving DecidableEq, Repr

/-- The if/else-if phrase chain of `checkLocalCommands` (App.tsx lines
200–215), applied to the lowercased text: returns `commandTriggered`, the
updated flags, and the actions performed. -/
def matchCommand (lower : String) (s : CmdState) : Bool × CmdState × List CmdAction :=
  if jsIncludes lower "toggle mute" then
    (true, { s with isMuted := !s.isMuted }, [CmdAction.toggleMuteCmd])
  else if jsIncludes lower "turn on camera" || jsIncludes lower "enable camera" then
    if !s.isVideoEnabled then
      (true, { s with isVideoEnabled := true }, [CmdAction.startVideoCmd])
    else (true, s, [])
  else if jsIncludes lower "turn off camera" || jsIncludes lower "disable camera" then
    if s.isVideoEnabled then
      (true, { s with isVideoEnabled := false }, [CmdAction.stopVideoCmd])
    else (true, s, [])
  else if jsIncludes lower "disconnect" || jsIncludes lower "shut down" ||
      jsIncludes lower "deactivate" then
    (true, s, [CmdAction.disconnectCmd])
  else (false, s, [])

/-- The log entry a firing trigger appends (App.tsx lines 219–224), tagged
as a voice command. -/
def voiceCommandLog (text : String) (now : Nat) : MessageLog where
  id := toString now ++ "cmd"
  sender := "user"
  text := "[VOICE COMMAND]: " ++ text
  timestamp := now

/-- `checkLocalCommands(text)` called at wall-clock `now` (App.tsx lines
195–226).  Natural-number truncated subtraction agrees with the JavaScript
`now - last < 2000` comparison in both orderings of `now` and `last`. -/
def checkLocalCommands (text : String) (now : Nat) (s : CmdState) : CmdState × List CmdAction :=
  if now - s.lastProcessedCommand < 2000 then (s, [])
  else
    match matchCommand (jsToLower text) s with
    | (true, s2, acts) =>
      ({ s2 with lastProcessedCommand := now,
                 logs := s2.logs ++ [voiceCommandLog text now] }, acts)
    | (false, s2, _) => (s2, [])

/-! ## Tool-Call Dispatcher (App.tsx lines 306–361, 603–644) -/

/-- The argument payload of a function call, by declared tool shape. -/
inductive FnArgs where
  | camera (enable : Bool)
  | volume (level : Int)
  | report (title content : String)
  | empty
deriving DecidableEq, Repr

/-- A remote-issued function call (`fc` in the `message.toolCall` loop). -/
structure FunctionCall where
  id : String
  name : String
  args : FnArgs
deriving DecidableEq, Repr

/-- One structured response, correlated by the original call identifier. -/
structure FunctionResponse where
  id : String
  name : String
  result : String
deriving DecidableEq, Repr

/-- The staged `pendingReport` state for the user-gated report tool. -/
structure PendingReport where
  id : String
  title : String
  content : String
deriving DecidableEq, Repr

/-- The state read and written by the tool-call branch of `onmessage` and by
the report confirm/cancel handlers. -/
structure ToolState where
  logs : List MessageLog
  pendingReport : Option PendingReport
  editedTitle : String
  volume : ℚ
  isVideoEnabled : Bool
deriving DecidableEq, Repr

/-- Externally visible effects of the dispatcher. -/
inductive ToolEffect where
  | sendToolResponse (rs : List FunctionResponse)
  | startVideoEffect
  | stopVideoEffect
deriving DecidableEq, Repr

/-- `JSON.stringify(fc.args)` for the modelled argument shapes (string
escaping elided; the claims do not depend on it). -/
def renderArgs : FnArgs → String
  | FnArgs.camera true => "\x7b\"enable\":true\x7d"
  | FnArgs.camera false => "\x7b\"enable\":false\x7d"
  | FnArgs.volume l => "\x7b\"level\":" ++ toString l ++ "\x7d"
  | FnArgs.report t c => "\x7b\"title\":\"" ++ t ++ "\",\"content\":\"" ++ c ++ "\"\x7d"
  | FnArgs.empty => "\x7b\x7d"

/-- The `⚙️ EXECUTING PROTOCOL` audit log entry appended before the batch is
executed (App.tsx lines 312–317). -/
def toolAuditLog (now : Nat) (calls : List FunctionCall) : MessageLog where
  id := toString now ++ "sys"
  sender := "jarvis"
  text := "⚙️ EXECUTING PROTOCOL: " ++
    String.intercalate ", " (calls.map (fun fc => fc.name ++ "(" ++ renderArgs fc.args ++ ")"))
  timestamp := now

/-- `title` of a report argument payload (destructuring of `fc.args`; a
missing field is modelled as the empty string). -/
def reportTitle : FnArgs → String
  | FnArgs.report t _ => t
  | _ => ""

/-- `content` of a report argument payload. -/
def reportContent : FnArgs → String
  | FnArgs.report _ c => c
  | _ => ""

/-- `enable` of a camera argument payload. -/
def cameraEnable : FnArgs → Bool
  | FnArgs.camera e => e
  | _ => false

/-- `level` of a volume argument payload. -/
def volumeLevel : FnArgs → Int
  | FnArgs.volume l => l
  | _ => 0

/-- `Math.max(0, Math.min(100, level)) / 100` (App.tsx line 339). -/
def clampGain (level : Int) : ℚ :=
  ((max 0 (min 100 level) : Int) : ℚ) / 100

/-- One iteration of the `for (const fc of message.toolCall.functionCalls)`
loop (App.tsx lines 321–353), threading the state, the `responses` array and
the side effects performed so far.  A `create_report` call stages the pending
report and `continue`s (pushing no response); every other call — the two
known tools and any unknown name — pushes exactly one response. -/
def runToolCall (acc : ToolState × List FunctionResponse × List ToolEffect)
    (fc : FunctionCall) : ToolState × List FunctionResponse × List ToolEffect :=
  let s := acc.1
  let rs := acc.2.1
  let es := acc.2.2
  if fc.name = "create_report" then
    ({ s with
        editedTitle := reportTitle fc.args,
        pendingReport := some ⟨fc.id, reportTitle fc.args, reportContent fc.args⟩ },
     rs, es)
  else if fc.name = "set_camera" then
    let enable := cameraEnable fc.args
    ({ s with isVideoEnabled := enable },
     rs ++ [⟨fc.id, fc.name, if enable then "Camera enabled." else "Camera disabled."⟩],
     es ++ [if enable then ToolEffect.startVideoEffect else ToolEffect.stopVideoEffect])
  else if fc.name = "set_volume" then
    let level := volumeLevel fc.args
    ({ s with volume := clampGain level },
     rs ++ [⟨fc.id, fc.name, "Volume set to " ++ toString level ++ "%."⟩],
     es)
  else
    (s, rs ++ [⟨fc.id, fc.name, "Function executed successfully."⟩], es)

/-- The `message.toolCall` branch of `onmessage` (App.tsx lines 308–361):
append the audit log entry, run the batch loop, then — only when the
collected `responses` array is non-empty — send it as a single
`sendToolResponse` to the channel. -/
def handleToolCall (now : Nat) (calls : List FunctionCall) (s : ToolState) :
    ToolState × List ToolEffect :=
  let s0 := { s with logs := s.logs ++ [toolAuditLog now calls] }
  let out := calls.foldl runToolCall (s0, [], [])
  (out.1, out.2.2 ++ if out.2.1.isEmpty then [] else [ToolEffect.sendToolResponse out.2.1])

/-- `handleConfirmReport` (App.tsx lines 603–629): append the report log
entry, send the deferred structured response for the staged call's
identifier, clear the staged report. -/
def handleConfirmReport (now : Nat) (s : ToolState) : ToolState × List ToolEffect :=
  match s.pendingReport with
  | none => (s, [])
  | some p =>
    let entry : MessageLog :=
      { id := toString now ++ "r"
        sender := "jarvis"
        text := s.editedTitle ++ "\n\n" ++ p.content
        timestamp := now
        isReport := true }
    ({ s with logs := s.logs ++ [entry], pendingReport := none },
     [ToolEffect.sendToolResponse
        [⟨p.id, "create_report", "Report \"" ++ s.editedTitle ++ "\" generated successfully."⟩]])

/-- `handleCancelReport` (App.tsx lines 631–644): send the cancellation
response for the staged call's identifier, clear the staged report. -/
def handleCancelReport (s : ToolState) : ToolState × List ToolEffect :=
  match s.pendingReport with
  | none => ({ s with pendingReport := none }, [])
  | some p =>
    ({ s with pendingReport := none },
     [ToolEffect.sendToolResponse
        [⟨p.id, "create_report", "User cancelled the report generation."⟩]])

/-- The call identifiers answered by a list of dispatcher effects, in send
order. -/
def sentIds (es : List ToolEffect) : List String :=
  match es with
  | [] => []
  | ToolEffect.sendToolResponse rs :: t => rs.map (fun r => r.id) ++ sentIds t
  | _ :: t => sentIds t

/-- The responses carried by a list of dispatcher effects, in send order. -/
def sentResponses (es : List ToolEffect) : List FunctionResponse :=
  match es with
  | [] => []
  | ToolEffect.sendToolResponse rs :: t => rs ++ sentResponses t
  | _ :: t => sentResponses t

/-! ## Playback Scheduler (App.tsx lines 392–435) -/

/-- The playback state: `nextStartTimeRef`, the `sourcesRef` set of active
playback handles (handles allocated from a counter), the speaking flag and
the output-transcription accumulator. -/
structure PlaybackState where
  nextStartTime : ℚ
  sources : List Nat
  nextSourceId : Nat
  isSpeaking : Bool
  currentOutputTranscription : String
deriving DecidableEq, Repr

/-- The inline-audio branch of `onmessage` (App.tsx lines 392–426) for one
fragment: `nextStartTime := max(nextStartTime, ctx.currentTime)`, start the
decoded buffer at that instant, advance `nextStartTime` by its duration,
track the new handle.  Returns the scheduled start time. -/
def handleAudioData (clock dur : ℚ) (s : PlaybackState) : ℚ × PlaybackState :=
  let start := max s.nextStartTime clock
  (start,
   { s with
      isSpeaking := true,
      nextStartTime := start + dur,
      sources := s.sources ++ [s.nextSourceId],
      nextSourceId := s.nextSourceId + 1 })

/-- A sequence of inbound audio fragments, each a pair of the output clock
reading at processing time and the decoded buffer's duration; returns the
scheduled start times in order. -/
def runAudioSeq (frags : List (ℚ × ℚ)) (s : PlaybackState) : List ℚ × PlaybackState :=
  match frags with
  | [] => ([], s)
  | (c, d) :: rest =>
    let out := handleAudioData c d s
    let outs := runAudioSeq rest out.2
    (out.1 :: outs.1, outs.2)

/-- The `message.serverContent?.interrupted` branch of `onmessage` (App.tsx
lines 428–435): stop every active handle, clear the set, reset
`nextStartTime` to zero, mark not-speaking, clear the output-transcription
accumulator.  Returns the handles that were stopped. -/
def handleInterrupted (s : PlaybackState) : PlaybackState × List Nat :=
  ({ s with
      sources := [],
      nextStartTime := 0,
      isSpeaking := false,
      currentOutputTranscription := "" },
   s.sources)

/-! ## Session Connection Manager (App.tsx lines 228–511) -/

/-- A pending `setTimeout` entry of the browser timer table. -/
structure PendingTimer where
  id : Nat
  delay : Nat
deriving DecidableEq, Repr

/-- The connection-management state: the `connectionState` React state, the
`isManuallyDisconnectedRef` and `reconnectTimeoutRef` refs, the browser's
pending-timer table (with a fresh-id counter), the error message and the
log. -/
structure SessionState where
  connectionState : ConnectionState
  isManuallyDisconnected : Bool
  reconnectTimeoutRef : Option Nat
  pendingTimers : List PendingTimer
  nextTimerId : Nat
  errorMsg : Option String
  logs : List MessageLog
deriving DecidableEq, Repr

/-- Externally visible effects of the connection manager. -/
inductive SessEffect where
  | reconnectAttempt
  | networkConnect
deriving DecidableEq, Repr

/-- `if (reconnectTimeoutRef.current) clearTimeout(reconnectTimeoutRef.current)`:
remove the referenced timer from the pending table (the ref itself is not
nulled by the source). -/
def clearReconnectTimeout (s : SessionState) : SessionState :=
  match s.reconnectTimeoutRef with
  | none => s
  | some i => { s with pendingTimers := s.pendingTimers.filter (fun t => t.id ≠ i) }

/-- The diagnostic log entry `scheduleReconnect` appends (App.tsx lines
473–478). -/
def reconnectLog (now : Nat) : MessageLog where
  id := toString now ++ "sys"
  sender := "jarvis"
  text := "⚠️ CONNECTION LOST. ATTEMPTING RECONNECT IN 30 SECONDS..."
  timestamp := now

/-- `scheduleReconnect` (App.tsx lines 470–482): clear any previously
referenced timer, append the diagnostic log entry, arm a fresh 30000 ms timer
whose callback is `connectToGemini(true)`, and store its id in the ref. -/
def scheduleReconnect (now : Nat) (s : SessionState) : SessionState :=
  let s1 := clearReconnectTimeout s
  { s1 with
      logs := s1.logs ++ [reconnectLog now],
      pendingTimers := s1.pendingTimers ++ [⟨s1.nextTimerId, 30000⟩],
      reconnectTimeoutRef := some s1.nextTimerId,
      nextTimerId := s1.nextTimerId + 1 }

/-- The `onerror` callback (App.tsx lines 445–453): record the message
(`err.message || fallback`), enter ERROR, and — unless manually
disconnected — schedule the reconnect. -/
def onerror (msg : String) (now : Nat) (s : SessionState) : SessionState :=
  let s1 := { s with
      errorMsg := some (if msg = "" then "Connection lost. J.A.R.V.I.S. is currently unavailable." else msg),
      connectionState := ConnectionState.ERROR }
  if s1.isManuallyDisconnected then s1 else scheduleReconnect now s1

/-- The `onclose` callback (App.tsx lines 437–444): unless manually
disconnected, schedule the reconnect; then enter DISCONNECTED. -/
def onclose (now : Nat) (s : SessionState) : SessionState :=
  let s1 := if s.isManuallyDisconnected then s else scheduleReconnect now s
  { s1 with connectionState := ConnectionState.DISCONNECTED }

/-- Firing of a pending timer by the browser: a due reconnect timer is
removed from the table (timers are one-shot) and its callback performs one
reconnect attempt (`connectToGemini(true)`); an id no longer pending fires
nothing. -/
def fireTimer (i : Nat) (s : SessionState) : SessionState × List SessEffect :=
  if s.pendingTimers.any (fun t => t.id = i) then
    ({ s with pendingTimers := s.pendingTimers.filter (fun t => t.id ≠ i) },
     [SessEffect.reconnectAttempt])
  else (s, [])

/-- `connectToGemini` (App.tsx lines 228–468), modelled through its
synchronous prefix up to the API-key check: reset the manual-disconnect flag
on a fresh connect, clear any referenced reconnect timer, clear the error,
enter CONNECTING.  With a key present the function proceeds to the network
(`ai.live.connect`), modelled by a `networkConnect` effect; with the key
absent it throws before any network attempt and the catch block (lines
459–467) records the error, enters ERROR and — the manual flag being
false — schedules a reconnect. -/
def connectToGemini (isReconnect : Bool) (apiKey : Option String) (now : Nat)
    (s : SessionState) : SessionState × List SessEffect :=
  let s0 := if isReconnect then s else { s with isManuallyDisconnected := false }
  let s1 := clearReconnectTimeout s0
  let s2 := { s1 with errorMsg := none, connectionState := ConnectionState.CONNECTING }
  match apiKey with
  | some _ => (s2, [SessEffect.networkConnect])
  | none =>
    let s3 := { s2 with
        errorMsg := some "API Key not found in environment variables",
        connectionState := ConnectionState.ERROR }
    (if s3.isManuallyDisconnected then s3 else scheduleReconnect now s3, [])

/-! ## Audio capture input path (App.tsx lines 283–304, 521–526) -/

/-- Modelled from the spec: `createAudioBlob` lives in src/utils/audioUtils.ts,
which is not in the repository snapshot.  Per §2, the Audio Codec Adapter
"converts floating-point audio samples to a fixed-point wire format":
samples are scaled to 16-bit integers. -/
def createAudioBlob (chunk : List ℚ) : List Int :=
  chunk.map (fun x => ⌊x * 32767⌋)

/-- The audio-capture pipeline state.  `capturedMuted` is the value of
`isMuted` closed over by `scriptProcessor.onaudioprocess` when the handler
was installed in `onopen`; `isMuted` is the current React state the UI and
`toggleMute` operate on. -/
structure AudioInputState where
  capturedMuted : Bool
  isMuted : Bool
  sentChunks : List (List Int)
deriving DecidableEq, Repr

/-- Installation of the `onaudioprocess` handler in `onopen` (App.tsx lines
283–304): the closure captures the `isMuted` binding of the render in which
`connectToGemini` was invoked. -/
def wireAudioInput (s : AudioInputState) : AudioInputState :=
  { s with capturedMuted := s.isMuted }

/-- `toggleMute` (App.tsx lines 521–526): flips the React `isMuted` state.
The already-installed `onaudioprocess` closure is not re-created. -/
def toggleMute (s : AudioInputState) : AudioInputState :=
  { s with isMuted := !s.isMuted }

/-- `scriptProcessor.onaudioprocess` (App.tsx lines 288–301): the guard
`if (isMuted) return` reads the *captured* binding; otherwise the chunk is
encoded by `createAudioBlob` and forwarded to the channel. -/
def onaudioprocess (chunk : List ℚ) (s : AudioInputState) : AudioInputState :=
  if s.capturedMuted then s
  else { s with sentChunks := s.sentChunks ++ [createAudioBlob chunk] }

/-- Is a call the user-gated report tool?  (The `fc.name === 'create_report'`
test of the batch loop.) -/
def isReportCall (fc : FunctionCall) : Bool :=
  fc.name = "create_report"

/-- The result string computed for an immediately-executed call (the
`result` variable of the batch loop, App.tsx lines 329–346). -/
def toolResult (fc : FunctionCall) : String :=
  if fc.name = "set_camera" then
    if cameraEnable fc.args then "Camera enabled." else "Camera disabled."
  else if fc.name = "set_volume" then
    "Volume set to " ++ toString (volumeLevel fc.args) ++ "%."
  else "Function executed successfully."

/-- The immediate structured response pushed for a non-report call. -/
def respOf (fc : FunctionCall) : FunctionResponse where
  id := fc.id
  name := fc.name
  result := toolResult fc

/-- The report staged after a batch: the *last* `create_report` call wins,
because each one overwrites `pendingReport`. -/
def lastReport : List FunctionCall → Option PendingReport
  | [] => none
  | fc :: rest =>
    match lastReport rest with
    | some p => some p
    | none =>
      if isReportCall fc then some ⟨fc.id, reportTitle fc.args, reportContent fc.args⟩
      else none

/-- The user's eventual resolution of a staged report: the confirm or the
cancel handler. -/
def deferredResolve (confirm : Bool) (now : Nat) (s : ToolState) : ToolState × List ToolEffect :=
  if confirm then handleConfirmReport now s else handleCancelReport s

/-- A concrete three-call batch — camera, report, volume — used as a test
vector for the dispatcher. -/
def sampleBatch : List FunctionCall :=
  [⟨"x", "set_camera", FnArgs.camera true⟩,
   ⟨"y", "create_report", FnArgs.report "T" "C"⟩,
   ⟨"z", "set_volume", FnArgs.volume 50⟩]

/-- A fresh dispatcher state: empty log, no staged report, full volume. -/
def freshToolState : ToolState :=
  ⟨[], none, "", 1, false⟩

/-! ## Theorems -/

theorem msOfIso_isoOfMs (ms : Nat) : msOfIso (isoOfMs ms) = ms := by
  dsimp only [msOfIso, isoOfMs]
  omega

theorem deserializeLog_serializeLog (l : MessageLog) :
    deserializeLog (serializeLog l) = l := by
  cases l
  simp [serializeLog, deserializeLog, msOfIso_isoOfMs]

theorem loadLogs_persistLogs (logs : List MessageLog) :
    loadLogs (persistLogs logs) = logs := by
  simp [loadLogs, persistLogs, List.map_map, Function.comp_def, deserializeLog_serializeLog]

theorem foldl_appendLog (entries : List MessageLog) (logs0 : List MessageLog) (st : LocalStore) :
    List.foldl appendLog (logs0, st) entries
      = (logs0 ++ entries, if entries.isEmpty then st else persistLogs (logs0 ++ entries)) := by
  induction entries generalizing logs0 st with
  | nil => simp
  | cons e rest ih =>
    simp only [List.foldl_cons, appendLog, ih, List.isEmpty_cons]
    cases h : rest.isEmpty with
    | true =>
      simp only [List.isEmpty_iff] at h
      simp [h]
    | false => simp [List.append_assoc]

/-- C9: for every sequence of log entries, appending them one by one — each
append persisting the full array to local storage — and then reloading from
storage reproduces the same ordered sequence of entries, with every field
(the millisecond timestamp included, hence timestamps to at least second
precision) equal to the original. -/
theorem log_roundtrip (logs0 : List MessageLog) (entries : List MessageLog) :
    (List.foldl appendLog (logs0, persistLogs logs0) entries).1 = logs0 ++ entries ∧
    loadLogs (List.foldl appendLog (logs0, persistLogs logs0) entries).2 = logs0 ++ entries := by
  rw [foldl_appendLog]
  refine ⟨rfl, ?_⟩
  cases h : entries.isEmpty with
  | true =>
    simp only [List.isEmpty_iff] at h
    simp [h, loadLogs_persistLogs]
  | false => simp [loadLogs_persistLogs]

/-- C6: an interruption signal, regardless of how many playback buffers are
in flight, stops every active playback handle, empties the active-playback
set, resets the next scheduled start time to zero, clears the output
transcription accumulator and marks the assistant not-speaking. -/
theorem interrupted_resets (s : PlaybackState) :
    (handleInterrupted s).2 = s.sources ∧
    (handleInterrupted s).1.sources = [] ∧
    (handleInterrupted s).1.nextStartTime = 0 ∧
    (handleInterrupted s).1.currentOutputTranscription = "" ∧
    (handleInterrupted s).1.isSpeaking = false := by
  simp [handleInterrupted]

/-- C8: a `set_volume(level)` tool call applies the gain
`clamp(level, 0, 100) / 100`; in particular `set_volume(150)` applies gain 1
and `set_volume(-10)` applies gain 0. -/
theorem set_volume_clamps (now : Nat) (cid : String) (level : Int) (s : ToolState) :
    (handleToolCall now [⟨cid, "set_volume", FnArgs.volume level⟩] s).1.volume
      = ((max 0 (min 100 level) : Int) : ℚ) / 100 ∧
    (handleToolCall now [⟨cid, "set_volume", FnArgs.volume 150⟩] s).1.volume = 1 ∧
    (handleToolCall now [⟨cid, "set_volume", FnArgs.volume (-10)⟩] s).1.volume = 0 := by
  refine ⟨rfl, ?_, ?_⟩
  all_goals simp [handleToolCall, runToolCall, clampGain, volumeLevel]

/-- C10: the structured response to a `set_volume(level)` call reports the
original requested level, not the clamped value that was applied as gain:
`set_volume(150)` answers "Volume set to 150%." while the applied gain is 1. -/
theorem set_volume_reports_raw_level (now : Nat) (cid : String) (level : Int) (s : ToolState) :
    sentResponses (handleToolCall now [⟨cid, "set_volume", FnArgs.volume level⟩] s).2
      = [⟨cid, "set_volume", "Volume set to " ++ toString level ++ "%."⟩] ∧
    sentResponses (handleToolCall now [⟨cid, "set_volume", FnArgs.volume 150⟩] s).2
      = [⟨cid, "set_volume", "Volume set to 150%."⟩] ∧
    (handleToolCall now [⟨cid, "set_volume", FnArgs.volume 150⟩] s).1.volume = 1 := by
  refine ⟨rfl, rfl, ?_⟩
  simp [handleToolCall, runToolCall, clampGain, volumeLevel]

/-- C3 (code bug): after the user toggles mute on a live session, the next
captured chunk is still encoded and forwarded to the channel, because
`onaudioprocess` reads the `isMuted` binding captured when the handler was
installed, not the current state: with the handler wired while unmuted and
mute then toggled on, processing the chunk `[1]` appends its encoding to the
sent chunks even though `isMuted` is `true`. -/
theorem stale_mute_chunk_forwarded :
    (toggleMute (wireAudioInput ⟨false, false, []⟩)).isMuted = true ∧
    (onaudioprocess [1] (toggleMute (wireAudioInput ⟨false, false, []⟩))).sentChunks
      = [[32767]] := by
  constructor
  · rfl
  · simp [onaudioprocess, toggleMute, wireAudioInput, createAudioBlob]

theorem runAudioSeq_ge (frags : List (ℚ × ℚ)) (s : PlaybackState)
    (hdur : ∀ p ∈ frags, 0 ≤ p.2) :
    ∀ x ∈ (runAudioSeq frags s).1, s.nextStartTime ≤ x := by
  induction frags generalizing s with
  | nil => simp [runAudioSeq]
  | cons p rest ih =>
    obtain ⟨c, d⟩ := p
    intro x hx
    simp only [runAudioSeq, List.mem_cons] at hx
    rcases hx with h | h
    · subst h
      exact le_max_left _ _
    · have h0 : (0 : ℚ) ≤ d := hdur (c, d) (by simp)
      have hrest := ih (handleAudioData c d s).2 (fun q hq => hdur q (List.mem_cons_of_mem _ hq)) x h
      have hnst : (handleAudioData c d s).2.nextStartTime = max s.nextStartTime c + d := rfl
      calc s.nextStartTime ≤ max s.nextStartTime c := le_max_left _ _
        _ ≤ max s.nextStartTime c + d := le_add_of_nonneg_right h0
        _ ≤ x := by rw [← hnst]; exact hrest

theorem zip_head_fst_mem {α β : Type} (A : List α) (B : List β) :
    ∀ y ∈ (A.zip B).head?, y.1 ∈ A := by
  cases A <;> cases B <;> simp

/-- C5: across any sequence of inbound audio fragments (each a pair of the
output-clock reading when the fragment is processed and the decoded buffer's
duration, all durations nonnegative), every buffer is scheduled to start no
earlier than the clock reading at the moment it is started, no buffer starts
earlier than the previous buffer's end (previous start plus previous
duration), and the scheduled start times are monotonically non-decreasing. -/
theorem playback_schedule_invariant (frags : List (ℚ × ℚ)) (s : PlaybackState)
    (hdur : ∀ p ∈ frags, 0 ≤ p.2) :
    (∀ q ∈ ((runAudioSeq frags s).1.zip frags), q.2.1 ≤ q.1) ∧
    List.Chain' (fun a b => a.1 + a.2.2 ≤ b.1) ((runAudioSeq frags s).1.zip frags) ∧
    List.Chain' (· ≤ ·) (runAudioSeq frags s).1 := by
  induction frags generalizing s with
  | nil => simp [runAudioSeq]
  | cons p rest ih =>
    obtain ⟨c, d⟩ := p
    have h0 : (0 : ℚ) ≤ d := hdur (c, d) (by simp)
    have hdur' : ∀ q ∈ rest, (0 : ℚ) ≤ q.2 :=
      fun q hq => hdur q (List.mem_cons_of_mem _ hq)
    obtain ⟨ihclock, ihchain, ihmono⟩ := ih (handleAudioData c d s).2 hdur'
    have hge := runAudioSeq_ge rest (handleAudioData c d s).2 hdur'
    have hnst : (handleAudioData c d s).2.nextStartTime = max s.nextStartTime c + d := rfl
    have hrun : (runAudioSeq ((c, d) :: rest) s).1
        = max s.nextStartTime c :: (runAudioSeq rest (handleAudioData c d s).2).1 := rfl
    refine ⟨?_, ?_, ?_⟩
    · intro q hq
      rw [hrun] at hq
      simp only [List.zip_cons_cons, List.mem_cons] at hq
      rcases hq with h | h
      · subst h
        exact le_max_right _ _
      · exact ihclock q h
    · rw [hrun, List.zip_cons_cons, List.chain'_cons']
      refine ⟨?_, ihchain⟩
      intro y hy
      have hfst := zip_head_fst_mem _ rest y hy
      have := hge y.1 hfst
      rw [hnst] at this
      exact this
    · rw [hrun, List.chain'_cons']
      refine ⟨?_, ihmono⟩
      intro y hy
      have hmem : y ∈ (runAudioSeq rest (handleAudioData c d s).2).1 :=
        List.mem_of_mem_head? hy
      have := hge y hmem
      rw [hnst] at this
      calc max s.nextStartTime c ≤ max s.nextStartTime c + d := le_add_of_nonneg_right h0
        _ ≤ y := this

/-- Witness for C5 at the concrete fragment sequence
`[(0, 1), (5, 2), (3, 1)]` from the idle playback state. -/
theorem playback_schedule_invariant_witness :
    (∀ p ∈ [((0 : ℚ), (1 : ℚ)), (5, 2), (3, 1)], 0 ≤ p.2) ∧
    ((∀ q ∈ ((runAudioSeq [((0 : ℚ), (1 : ℚ)), (5, 2), (3, 1)] ⟨0, [], 0, false, ""⟩).1.zip
        [((0 : ℚ), (1 : ℚ)), (5, 2), (3, 1)]), q.2.1 ≤ q.1) ∧
      List.Chain' (fun a b => a.1 + a.2.2 ≤ b.1)
        ((runAudioSeq [((0 : ℚ), (1 : ℚ)), (5, 2), (3, 1)] ⟨0, [], 0, false, ""⟩).1.zip
          [((0 : ℚ), (1 : ℚ)), (5, 2), (3, 1)]) ∧
      List.Chain' (· ≤ ·)
        (runAudioSeq [((0 : ℚ), (1 : ℚ)), (5, 2), (3, 1)] ⟨0, [], 0, false, ""⟩).1) :=
  ⟨by norm_num,
   playback_schedule_invariant [((0 : ℚ), (1 : ℚ)), (5, 2), (3, 1)] ⟨0, [], 0, false, ""⟩
     (by norm_num)⟩

theorem matchCommand_preserves (lower : String) (s : CmdState) :
    (matchCommand lower s).2.1.lastProcessedCommand = s.lastProcessedCommand ∧
    (matchCommand lower s).2.1.logs = s.logs := by
  unfold matchCommand
  split_ifs <;> exact ⟨rfl, rfl⟩

/-- C7: when a voice-command trigger fires at time `t1` (the phrase matches
and no trigger fired within the preceding 2000 ms), it updates the debounce
timestamp, performs its actions and appends exactly one log entry tagged as a
voice command; any second invocation at a time `t2` within 2000 ms of `t1`
is ignored completely — no action, no log, no state change — so the pair
produces exactly one firing. -/
theorem voice_command_debounce (text1 text2 : String) (t1 t2 : Nat) (s : CmdState)
    (hfire : (matchCommand (jsToLower text1) s).1 = true)
    (hready : 2000 ≤ t1 - s.lastProcessedCommand)
    (hclose : t2 - t1 < 2000) :
    (checkLocalCommands text1 t1 s).1.lastProcessedCommand = t1 ∧
    (checkLocalCommands text1 t1 s).1.logs = s.logs ++ [voiceCommandLog text1 t1] ∧
    (checkLocalCommands text1 t1 s).2 = (matchCommand (jsToLower text1) s).2.2 ∧
    checkLocalCommands text2 t2 (checkLocalCommands text1 t1 s).1
      = ((checkLocalCommands text1 t1 s).1, []) := by
  have h1 : ¬ (t1 - s.lastProcessedCommand < 2000) := by omega
  obtain ⟨hlast, hlogs⟩ := matchCommand_preserves (jsToLower text1) s
  rcases hm : matchCommand (jsToLower text1) s with ⟨b, s2, acts⟩
  rw [hm] at hfire hlast hlogs
  dsimp only at hfire hlast hlogs
  subst hfire
  have hrun : checkLocalCommands text1 t1 s
      = ({ s2 with lastProcessedCommand := t1, logs := s2.logs ++ [voiceCommandLog text1 t1] },
         acts) := by
    simp [checkLocalCommands, h1, hm]
  rw [hrun]
  refine ⟨rfl, by simp [hlogs], rfl, ?_⟩
  have h2 : t2 - t1 < 2000 := hclose
  simp [checkLocalCommands, h2]

/-- Witness for C7: the phrase "toggle mute" fires at t = 5000 from an idle
state, and a second "toggle mute" at t = 6500 is ignored. -/
theorem voice_command_debounce_witness :
    ((matchCommand (jsToLower "toggle mute") ⟨0, false, false, []⟩).1 = true ∧
     2000 ≤ 5000 - (0 : Nat) ∧ 6500 - 5000 < 2000) ∧
    ((checkLocalCommands "toggle mute" 5000 ⟨0, false, false, []⟩).1.lastProcessedCommand = 5000 ∧
     (checkLocalCommands "toggle mute" 5000 ⟨0, false, false, []⟩).1.logs
       = [] ++ [voiceCommandLog "toggle mute" 5000] ∧
     (checkLocalCommands "toggle mute" 5000 ⟨0, false, false, []⟩).2
       = (matchCommand (jsToLower "toggle mute") ⟨0, false, false, []⟩).2.2 ∧
     checkLocalCommands "toggle mute" 6500 (checkLocalCommands "toggle mute" 5000 ⟨0, false, false, []⟩).1
       = ((checkLocalCommands "toggle mute" 5000 ⟨0, false, false, []⟩).1, [])) :=
  ⟨⟨by decide, by decide, by decide⟩,
   voice_command_debounce "toggle mute" "toggle mute" 5000 6500 ⟨0, false, false, []⟩
     (by decide) (by decide) (by decide)⟩

/-- Consistency of the timer table with the single `reconnectTimeoutRef`:
every pending timer of the model is the one the ref designates.  This holds
initially (no timers) and is preserved by every handler. -/
def timersOwned (s : SessionState) : Prop :=
  ∀ t ∈ s.pendingTimers, s.reconnectTimeoutRef = some t.id

theorem clearReconnectTimeout_spec (s : SessionState) (hcons : timersOwned s) :
    clearReconnectTimeout s = { s with pendingTimers := [] } := by
  unfold clearReconnectTimeout
  cases href : s.reconnectTimeoutRef with
  | none =>
    have hnil : s.pendingTimers = [] := by
      cases h : s.pendingTimers with
      | nil => rfl
      | cons a l =>
        have := hcons a (by rw [h]; exact List.mem_cons_self a l)
        rw [href] at this
        cases this
    cases s
    simp_all
  | some i =>
    have hnil : s.pendingTimers.filter (fun t => t.id ≠ i) = [] := by
      rw [List.filter_eq_nil_iff]
      intro t ht
      have := hcons t ht
      rw [href] at this
      simp at this
      simp [this]
    dsimp only
    rw [hnil]

theorem scheduleReconnect_spec (now : Nat) (s : SessionState) (hcons : timersOwned s) :
    scheduleReconnect now s = { s with
      logs := s.logs ++ [reconnectLog now],
      pendingTimers := [⟨s.nextTimerId, 30000⟩],
      reconnectTimeoutRef := some s.nextTimerId,
      nextTimerId := s.nextTimerId + 1 } := by
  unfold scheduleReconnect
  rw [clearReconnectTimeout_spec s hcons]
  simp

/-- The state `onerror` produces when the manual-disconnect flag is unset. -/
theorem onerror_spec (msg : String) (now : Nat) (s : SessionState)
    (hcons : timersOwned s) (hman : s.isManuallyDisconnected = false) :
    onerror msg now s = { s with
      errorMsg := some (if msg = "" then "Connection lost. J.A.R.V.I.S. is currently unavailable." else msg),
      connectionState := ConnectionState.ERROR,
      logs := s.logs ++ [reconnectLog now],
      pendingTimers := [⟨s.nextTimerId, 30000⟩],
      reconnectTimeoutRef := some s.nextTimerId,
      nextTimerId := s.nextTimerId + 1 } := by
  obtain ⟨cs, man, ref, pend, ntid, em, lg⟩ := s
  subst hman
  unfold onerror
  dsimp only
  rw [if_neg (by simp)]
  rw [scheduleReconnect_spec now
    ⟨ConnectionState.ERROR, false, ref, pend, ntid,
      some (if msg = "" then "Connection lost. J.A.R.V.I.S. is currently unavailable." else msg), lg⟩
    (fun t ht => hcons t ht)]

/-- `connectToGemini` with the API key present: the previously referenced
reconnect timer is cancelled, the state enters CONNECTING and the network is
reached. -/
theorem connectToGemini_some_spec (isReconnect : Bool) (key : String) (now : Nat)
    (s : SessionState) (hcons : timersOwned s) (hman : s.isManuallyDisconnected = false) :
    connectToGemini isReconnect (some key) now s
      = ({ s with isManuallyDisconnected := false,
                  pendingTimers := [],
                  errorMsg := none,
                  connectionState := ConnectionState.CONNECTING },
         [SessEffect.networkConnect]) := by
  obtain ⟨cs, man, ref, pend, ntid, em, lg⟩ := s
  subst hman
  have hclear := clearReconnectTimeout_spec ⟨cs, false, ref, pend, ntid, em, lg⟩
    (fun t ht => hcons t ht)
  cases isReconnect <;> simp [connectToGemini, hclear]

/-- `connectToGemini` with the API key absent: the connect attempt throws
before any network attempt, the catch block records the configuration error,
and a fresh 30000 ms reconnect timer is armed. -/
theorem connectToGemini_none_spec (isReconnect : Bool) (now : Nat)
    (s : SessionState) (hcons : timersOwned s) (hman : s.isManuallyDisconnected = false) :
    connectToGemini isReconnect none now s
      = ({ s with isManuallyDisconnected := false,
                  errorMsg := some "API Key not found in environment variables",
                  connectionState := ConnectionState.ERROR,
                  logs := s.logs ++ [reconnectLog now],
                  pendingTimers := [⟨s.nextTimerId, 30000⟩],
                  reconnectTimeoutRef := some s.nextTimerId,
                  nextTimerId := s.nextTimerId + 1 },
         []) := by
  obtain ⟨cs, man, ref, pend, ntid, em, lg⟩ := s
  subst hman
  have hclear := clearReconnectTimeout_spec ⟨cs, false, ref, pend, ntid, em, lg⟩
    (fun t ht => hcons t ht)
  have hsched := scheduleReconnect_spec now
    ⟨ConnectionState.ERROR, false, ref, [], ntid,
      some "API Key not found in environment variables", lg⟩
    (fun t ht => by cases ht)
  cases isReconnect <;> simp [connectToGemini, hclear, hsched]

/-- C2: on a channel error event with the manual-disconnect flag unset, the
connection state becomes ERROR and exactly one reconnect timer is pending,
armed for 30000 ms; firing that timer performs exactly one reconnect attempt
and leaves no timer pending (so it cannot fire again); and any subsequent
`connectToGemini` call cancels the previously scheduled reconnect timer. -/
theorem error_arms_single_reconnect (msg : String) (now : Nat) (s : SessionState)
    (hcons : timersOwned s)
    (hman : s.isManuallyDisconnected = false) :
    (onerror msg now s).connectionState = ConnectionState.ERROR ∧
    (onerror msg now s).pendingTimers = [⟨s.nextTimerId, 30000⟩] ∧
    (fireTimer s.nextTimerId (onerror msg now s)).2 = [SessEffect.reconnectAttempt] ∧
    (fireTimer s.nextTimerId (onerror msg now s)).1.pendingTimers = [] ∧
    (fireTimer s.nextTimerId (fireTimer s.nextTimerId (onerror msg now s)).1).2 = [] ∧
    (∀ (isReconnect : Bool) (apiKey : Option String) (n2 : Nat),
      PendingTimer.mk s.nextTimerId 30000 ∉
        (connectToGemini isReconnect apiKey n2 (onerror msg now s)).1.pendingTimers) := by
  rw [onerror_spec msg now s hcons hman]
  refine ⟨rfl, rfl, by simp [fireTimer], by simp [fireTimer], by simp [fireTimer], ?_⟩
  intro isReconnect apiKey n2
  have hcons2 : timersOwned { s with
      errorMsg := some (if msg = "" then "Connection lost. J.A.R.V.I.S. is currently unavailable." else msg),
      connectionState := ConnectionState.ERROR,
      logs := s.logs ++ [reconnectLog now],
      pendingTimers := [⟨s.nextTimerId, 30000⟩],
      reconnectTimeoutRef := some s.nextTimerId,
      nextTimerId := s.nextTimerId + 1 } := by
    intro t ht
    rcases List.mem_singleton.mp ht with rfl
    rfl
  cases apiKey with
  | some key =>
    rw [connectToGemini_some_spec isReconnect key n2 _ hcons2 hman]
    simp
  | none =>
    rw [connectToGemini_none_spec isReconnect n2 _ hcons2 hman]
    simp

/-- Witness for C2 from a concrete connected session with no pending timer. -/
theorem error_arms_single_reconnect_witness :
    (timersOwned ⟨ConnectionState.CONNECTED, false, none, [], 0, none, []⟩ ∧
     (⟨ConnectionState.CONNECTED, false, none, [], 0, none, []⟩ : SessionState).isManuallyDisconnected = false) ∧
    ((onerror "boom" 7 ⟨ConnectionState.CONNECTED, false, none, [], 0, none, []⟩).connectionState = ConnectionState.ERROR ∧
     (onerror "boom" 7 ⟨ConnectionState.CONNECTED, false, none, [], 0, none, []⟩).pendingTimers = [⟨0, 30000⟩] ∧
     (fireTimer 0 (onerror "boom" 7 ⟨ConnectionState.CONNECTED, false, none, [], 0, none, []⟩)).2 = [SessEffect.reconnectAttempt] ∧
     (fireTimer 0 (onerror "boom" 7 ⟨ConnectionState.CONNECTED, false, none, [], 0, none, []⟩)).1.pendingTimers = [] ∧
     (fireTimer 0 (fireTimer 0 (onerror "boom" 7 ⟨ConnectionState.CONNECTED, false, none, [], 0, none, []⟩)).1).2 = [] ∧
     (∀ (isReconnect : Bool) (apiKey : Option String) (n2 : Nat),
       PendingTimer.mk 0 30000 ∉
         (connectToGemini isReconnect apiKey n2 (onerror "boom" 7 ⟨ConnectionState.CONNECTED, false, none, [], 0, none, []⟩)).1.pendingTimers)) :=
  ⟨⟨fun t ht => absurd ht (List.not_mem_nil t), rfl⟩,
   error_arms_single_reconnect "boom" 7 ⟨ConnectionState.CONNECTED, false, none, [], 0, none, []⟩
     (fun t ht => absurd ht (List.not_mem_nil t)) rfl⟩

/-- C4 counterexample: with the API key absent, `connectToGemini` from a
fresh disconnected state does fail before any network attempt with the
configuration error, but it *does* schedule a 30000 ms reconnect timer —
refuting the claim that no reconnect timer is scheduled for this error
kind. -/
theorem missing_key_schedules_reconnect_cex :
    (connectToGemini false none 9 ⟨ConnectionState.DISCONNECTED, false, none, [], 0, none, []⟩).2 = [] ∧
    (connectToGemini false none 9 ⟨ConnectionState.DISCONNECTED, false, none, [], 0, none, []⟩).1.errorMsg
      = some "API Key not found in environment variables" ∧
    (connectToGemini false none 9 ⟨ConnectionState.DISCONNECTED, false, none, [], 0, none, []⟩).1.connectionState
      = ConnectionState.ERROR ∧
    (connectToGemini false none 9 ⟨ConnectionState.DISCONNECTED, false, none, [], 0, none, []⟩).1.pendingTimers
      = [⟨0, 30000⟩] := by
  refine ⟨rfl, rfl, rfl, rfl⟩

/-- C4 amended: if the API key is absent when `connectToGemini` is invoked
afresh, the attempt fails before any network attempt with the fatal,
user-visible configuration error ("API Key not found in environment
variables", state ERROR) — but, exactly as for any other connect failure, a
single reconnect timer armed for 30000 ms is scheduled. -/
theorem missing_key_fails_then_retries (now : Nat) (s : SessionState)
    (hcons : timersOwned s) (hman : s.isManuallyDisconnected = false) :
    (connectToGemini false none now s).2 = [] ∧
    (connectToGemini false none now s).1.errorMsg
      = some "API Key not found in environment variables" ∧
    (connectToGemini false none now s).1.connectionState = ConnectionState.ERROR ∧
    (connectToGemini false none now s).1.pendingTimers = [⟨s.nextTimerId, 30000⟩] := by
  rw [connectToGemini_none_spec false now s hcons hman]
  exact ⟨rfl, rfl, rfl, rfl⟩

/-- Witness for C4 (amended) at a concrete fresh state. -/
theorem missing_key_fails_then_retries_witness :
    (timersOwned ⟨ConnectionState.DISCONNECTED, false, none, [], 3, none, []⟩ ∧
     (⟨ConnectionState.DISCONNECTED, false, none, [], 3, none, []⟩ : SessionState).isManuallyDisconnected = false) ∧
    ((connectToGemini false none 11 ⟨ConnectionState.DISCONNECTED, false, none, [], 3, none, []⟩).2 = [] ∧
     (connectToGemini false none 11 ⟨ConnectionState.DISCONNECTED, false, none, [], 3, none, []⟩).1.errorMsg
       = some "API Key not found in environment variables" ∧
     (connectToGemini false none 11 ⟨ConnectionState.DISCONNECTED, false, none, [], 3, none, []⟩).1.connectionState
       = ConnectionState.ERROR ∧
     (connectToGemini false none 11 ⟨ConnectionState.DISCONNECTED, false, none, [], 3, none, []⟩).1.pendingTimers
       = [⟨3, 30000⟩]) :=
  ⟨⟨fun t ht => absurd ht (List.not_mem_nil t), rfl⟩,
   missing_key_fails_then_retries 11 ⟨ConnectionState.DISCONNECTED, false, none, [], 3, none, []⟩
     (fun t ht => absurd ht (List.not_mem_nil t)) rfl⟩

theorem sentIds_nil : sentIds [] = [] := rfl

theorem sentIds_send (rs : List FunctionResponse) (t : List ToolEffect) :
    sentIds (ToolEffect.sendToolResponse rs :: t) = rs.map (fun r => r.id) ++ sentIds t := rfl

theorem sentIds_start (t : List ToolEffect) :
    sentIds (ToolEffect.startVideoEffect :: t) = sentIds t := rfl

theorem sentIds_stop (t : List ToolEffect) :
    sentIds (ToolEffect.stopVideoEffect :: t) = sentIds t := rfl

theorem sentIds_append (a b : List ToolEffect) :
    sentIds (a ++ b) = sentIds a ++ sentIds b := by
  induction a with
  | nil => simp [sentIds_nil]
  | cons e t ih =>
    cases e <;> simp [sentIds_send, sentIds_start, sentIds_stop, ih]

/-- Characterization of the batch loop: the `responses` array collects one
response per non-report call in order, the video effects carry no responses,
and the staged report is the last `create_report` call of the batch (or the
previously staged one when there is none). -/
theorem foldl_runToolCall_spec (calls : List FunctionCall) :
    ∀ (s : ToolState) (rs : List FunctionResponse) (es : List ToolEffect),
    (calls.foldl runToolCall (s, rs, es)).2.1
        = rs ++ (calls.filter (fun fc => !isReportCall fc)).map respOf ∧
    sentIds (calls.foldl runToolCall (s, rs, es)).2.2 = sentIds es ∧
    (calls.foldl runToolCall (s, rs, es)).1.pendingReport
        = (match lastReport calls with
           | some p => some p
           | none => s.pendingReport) := by
  induction calls with
  | nil => intro s rs es; simp [lastReport]
  | cons fc rest ih =>
    intro s rs es
    by_cases h1 : fc.name = "create_report"
    · have e1 : runToolCall (s, rs, es) fc
          = ({ s with
                 editedTitle := reportTitle fc.args
                 pendingReport := some ⟨fc.id, reportTitle fc.args, reportContent fc.args⟩ },
             rs, es) := by
        simp [runToolCall, h1]
      rw [List.foldl_cons, e1]
      obtain ⟨ih1, ih2, ih3⟩ := ih _ rs es
      refine ⟨?_, ih2, ?_⟩
      · rw [ih1, List.filter_cons]
        simp [isReportCall, h1]
      · rw [ih3]
        cases hr : lastReport rest <;> simp [lastReport, hr, isReportCall, h1]
    · by_cases h2 : fc.name = "set_camera"
      · cases hb : cameraEnable fc.args with
        | false =>
          have e1 : runToolCall (s, rs, es) fc
              = ({ s with isVideoEnabled := false },
                 rs ++ [respOf fc], es ++ [ToolEffect.stopVideoEffect]) := by
            simp [runToolCall, h1, h2, hb, respOf, toolResult]
          rw [List.foldl_cons, e1]
          obtain ⟨ih1, ih2, ih3⟩ := ih _ (rs ++ [respOf fc]) (es ++ [ToolEffect.stopVideoEffect])
          refine ⟨?_, ?_, ?_⟩
          · rw [ih1, List.filter_cons]
            simp [isReportCall, h1]
          · rw [ih2, sentIds_append, sentIds_stop, sentIds_nil, List.append_nil]
          · rw [ih3]
            cases hr : lastReport rest <;> simp [lastReport, hr, isReportCall, h1]
        | true =>
          have e1 : runToolCall (s, rs, es) fc
              = ({ s with isVideoEnabled := true },
                 rs ++ [respOf fc], es ++ [ToolEffect.startVideoEffect]) := by
            simp [runToolCall, h1, h2, hb, respOf, toolResult]
          rw [List.foldl_cons, e1]
          obtain ⟨ih1, ih2, ih3⟩ := ih _ (rs ++ [respOf fc]) (es ++ [ToolEffect.startVideoEffect])
          refine ⟨?_, ?_, ?_⟩
          · rw [ih1, List.filter_cons]
            simp [isReportCall, h1]
          · rw [ih2, sentIds_append, sentIds_start, sentIds_nil, List.append_nil]
          · rw [ih3]
            cases hr : lastReport rest <;> simp [lastReport, hr, isReportCall, h1]
      · by_cases h3 : fc.name = "set_volume"
        · have e1 : runToolCall (s, rs, es) fc
              = ({ s with volume := clampGain (volumeLevel fc.args) },
                 rs ++ [respOf fc], es) := by
            simp [runToolCall, h1, h2, h3, respOf, toolResult]
          rw [List.foldl_cons, e1]
          obtain ⟨ih1, ih2, ih3⟩ := ih _ (rs ++ [respOf fc]) es
          refine ⟨?_, ih2, ?_⟩
          · rw [ih1, List.filter_cons]
            simp [isReportCall, h1]
          · rw [ih3]
            cases hr : lastReport rest <;> simp [lastReport, hr, isReportCall, h1]
        · have e1 : runToolCall (s, rs, es) fc = (s, rs ++ [respOf fc], es) := by
            simp [runToolCall, h1, h2, h3, respOf, toolResult]
          rw [List.foldl_cons, e1]
          obtain ⟨ih1, ih2, ih3⟩ := ih _ (rs ++ [respOf fc]) es
          refine ⟨?_, ih2, ?_⟩
          · rw [ih1, List.filter_cons]
            simp [isReportCall, h1]
          · rw [ih3]
            cases hr : lastReport rest <;> simp [lastReport, hr, isReportCall, h1]

/-- The batch handler: the immediate reply carries exactly the non-report
call identifiers in order, and exactly the last `create_report` call (if any)
is left staged. -/
theorem handleToolCall_spec (now : Nat) (calls : List FunctionCall) (s : ToolState)
    (hpend : s.pendingReport = none) :
    sentIds (handleToolCall now calls s).2
        = (calls.filter (fun fc => !isReportCall fc)).map (fun fc => fc.id) ∧
    (handleToolCall now calls s).1.pendingReport = lastReport calls := by
  unfold handleToolCall
  obtain ⟨h1, h2, h3⟩ := foldl_runToolCall_spec calls
    { s with logs := s.logs ++ [toolAuditLog now calls] } [] []
  dsimp only
  constructor
  · rw [sentIds_append, h2, sentIds_nil, List.nil_append, h1, List.nil_append]
    cases hf : ((calls.filter (fun fc => !isReportCall fc)).map respOf).isEmpty with
    | true =>
      rw [List.isEmpty_iff] at hf
      have hfil : calls.filter (fun fc => !isReportCall fc) = [] := by
        cases h : calls.filter (fun fc => !isReportCall fc) with
        | nil => rfl
        | cons a l => rw [h] at hf; cases hf
      simp [hfil, sentIds_nil]
    | false =>
      simp only [hf, Bool.false_eq_true, if_false]
      rw [sentIds_send, sentIds_nil, List.append_nil, List.map_map]
      rfl
  · rw [h3, hpend]
    cases lastReport calls <;> rfl

/-- Resolution of the staged report (confirm or cancel): with no report
staged nothing is sent, with a staged report exactly one response for its
identifier is sent, and in either case no report remains staged. -/
theorem deferredResolve_spec (confirm : Bool) (now : Nat) (s : ToolState) :
    (s.pendingReport = none →
      (deferredResolve confirm now s).2 = [] ∧
      (deferredResolve confirm now s).1.pendingReport = none) ∧
    (∀ p, s.pendingReport = some p →
      sentIds (deferredResolve confirm now s).2 = [p.id] ∧
      (deferredResolve confirm now s).1.pendingReport = none) := by
  constructor
  · intro hp
    cases confirm <;>
      simp [deferredResolve, handleConfirmReport, handleCancelReport, hp]
  · intro p hp
    cases confirm <;>
      simp [deferredResolve, handleConfirmReport, handleCancelReport, hp,
        sentIds_send, sentIds_nil]

theorem lastReport_of_no_reports (calls : List FunctionCall)
    (h : ∀ fc ∈ calls, isReportCall fc = false) : lastReport calls = none := by
  induction calls with
  | nil => rfl
  | cons fc rest ih =>
    rw [lastReport, ih (fun a ha => h a (List.mem_cons_of_mem fc ha)),
      h fc (List.mem_cons_self fc rest)]
    rfl

theorem lastReport_of_filter_singleton (calls : List FunctionCall) (r : FunctionCall)
    (h : calls.filter isReportCall = [r]) :
    lastReport calls = some ⟨r.id, reportTitle r.args, reportContent r.args⟩ := by
  induction calls with
  | nil => cases h
  | cons fc rest ih =>
    rw [List.filter_cons] at h
    cases hr : isReportCall fc with
    | true =>
      rw [hr] at h
      simp at h
      obtain ⟨rfl, hrest⟩ := h
      rw [lastReport, lastReport_of_no_reports rest hrest, hr]
      rfl
    | false =>
      rw [hr] at h
      simp at h
      rw [lastReport, ih h]

/-- C1 counterexample: a batch of two `create_report` calls with identifiers
"a" and "b".  The immediate reply carries no response; the staged report is
the second call (the first `setPendingReport` is overwritten); the user's
confirmation therefore resolves only "b", and no later confirm or cancel can
ever answer "a".  The batch of N = 2 calls yields one total response, not
two — refuting the claim that every `create_report` call is resolved exactly
once. -/
theorem double_report_first_never_answered :
    sentIds (handleToolCall 5
      [⟨"a", "create_report", FnArgs.report "T1" "C1"⟩,
       ⟨"b", "create_report", FnArgs.report "T2" "C2"⟩] ⟨[], none, "", 1, false⟩).2 = [] ∧
    (handleToolCall 5
      [⟨"a", "create_report", FnArgs.report "T1" "C1"⟩,
       ⟨"b", "create_report", FnArgs.report "T2" "C2"⟩] ⟨[], none, "", 1, false⟩).1.pendingReport
      = some ⟨"b", "T2", "C2"⟩ ∧
    sentIds (handleConfirmReport 6 (handleToolCall 5
      [⟨"a", "create_report", FnArgs.report "T1" "C1"⟩,
       ⟨"b", "create_report", FnArgs.report "T2" "C2"⟩] ⟨[], none, "", 1, false⟩).1).2 = ["b"] ∧
    sentIds (handleConfirmReport 7 (handleConfirmReport 6 (handleToolCall 5
      [⟨"a", "create_report", FnArgs.report "T1" "C1"⟩,
       ⟨"b", "create_report", FnArgs.report "T2" "C2"⟩] ⟨[], none, "", 1, false⟩).1).1).2 = [] ∧
    sentIds (handleCancelReport (handleConfirmReport 6 (handleToolCall 5
      [⟨"a", "create_report", FnArgs.report "T1" "C1"⟩,
       ⟨"b", "create_report", FnArgs.report "T2" "C2"⟩] ⟨[], none, "", 1, false⟩).1).1).2 = [] :=
  ⟨rfl, rfl, rfl, rfl, rfl⟩

/-- C1 (amended): for a tool-call batch containing at most one
`create_report` call, received while no report is already staged: the
immediate reply answers exactly the non-report calls, one response per call
correlated by identifier, in call order; a `create_report` call is excluded
from the immediate reply and answered exactly once by the user's eventual
confirm-or-cancel resolution; altogether the answered identifiers are a
permutation of the batch's N identifiers, the staged report is then cleared,
and any repeated resolution sends nothing further. -/
theorem tool_batch_one_response_each (now now2 now3 : Nat) (confirm confirm2 : Bool)
    (calls : List FunctionCall) (s : ToolState)
    (hpend : s.pendingReport = none)
    (hle : calls.countP isReportCall ≤ 1) :
    sentIds (handleToolCall now calls s).2
      = (calls.filter (fun fc => !isReportCall fc)).map (fun fc => fc.id) ∧
    sentIds (deferredResolve confirm now2 (handleToolCall now calls s).1).2
      = (calls.filter isReportCall).map (fun fc => fc.id) ∧
    List.Perm
      (sentIds (handleToolCall now calls s).2
        ++ sentIds (deferredResolve confirm now2 (handleToolCall now calls s).1).2)
      (calls.map (fun fc => fc.id)) ∧
    (deferredResolve confirm now2 (handleToolCall now calls s).1).1.pendingReport = none ∧
    (deferredResolve confirm2 now3
      (deferredResolve confirm now2 (handleToolCall now calls s).1).1).2 = [] := by
  obtain ⟨hA, hB⟩ := handleToolCall_spec now calls s hpend
  rw [List.countP_eq_length_filter] at hle
  cases hf : calls.filter isReportCall with
  | nil =>
    have hall : ∀ fc ∈ calls, isReportCall fc = false := by
      intro fc hfc
      have := List.filter_eq_nil_iff.mp hf fc hfc
      simpa using this
    have hlr : lastReport calls = none := lastReport_of_no_reports calls hall
    have hpend2 : (handleToolCall now calls s).1.pendingReport = none := by rw [hB, hlr]
    obtain ⟨hres1, hres2⟩ := (deferredResolve_spec confirm now2 _).1 hpend2
    have hfilters : calls.filter (fun fc => !isReportCall fc) = calls :=
      List.filter_eq_self.mpr (fun a ha => by rw [hall a ha]; rfl)
    refine ⟨hA, ?_, ?_, hres2, ?_⟩
    · rw [hres1]
      rfl
    · rw [hA, hres1, hfilters, sentIds_nil, List.append_nil]
    · exact ((deferredResolve_spec confirm2 now3 _).1 hres2).1
  | cons r rest2 =>
    have hr2 : rest2 = [] := by
      rw [hf] at hle
      simp only [List.length_cons] at hle
      exact List.eq_nil_of_length_eq_zero (by omega)
    subst hr2
    have hlr : lastReport calls = some ⟨r.id, reportTitle r.args, reportContent r.args⟩ :=
      lastReport_of_filter_singleton calls r hf
    have hpend2 : (handleToolCall now calls s).1.pendingReport
        = some ⟨r.id, reportTitle r.args, reportContent r.args⟩ := by rw [hB, hlr]
    obtain ⟨hres1, hres2⟩ := (deferredResolve_spec confirm now2 _).2 _ hpend2
    refine ⟨hA, ?_, ?_, hres2, ?_⟩
    · rw [hres1]
      rfl
    · rw [hA, hres1]
      have hperm : List.Perm
          (calls.filter (fun fc => !isReportCall fc) ++ calls.filter isReportCall) calls :=
        List.Perm.trans List.perm_append_comm (List.filter_append_perm isReportCall calls)
      have hmap := List.Perm.map (fun fc => fc.id) hperm
      rw [List.map_append, hf] at hmap
      exact hmap
    · exact ((deferredResolve_spec confirm2 now3 _).1 hres2).1

/-- Witness for C1 (amended) at the concrete three-call batch — one camera
call, one report call, one volume call — resolved by confirmation. -/
theorem tool_batch_one_response_each_witness :
    (freshToolState.pendingReport = none ∧
     sampleBatch.countP isReportCall ≤ 1) ∧
    (sentIds (handleToolCall 1 sampleBatch freshToolState).2
       = (sampleBatch.filter (fun fc => !isReportCall fc)).map (fun fc => fc.id) ∧
     sentIds (deferredResolve true 2 (handleToolCall 1 sampleBatch freshToolState).1).2
       = (sampleBatch.filter isReportCall).map (fun fc => fc.id) ∧
     List.Perm
       (sentIds (handleToolCall 1 sampleBatch freshToolState).2
         ++ sentIds (deferredResolve true 2 (handleToolCall 1 sampleBatch freshToolState).1).2)
       (sampleBatch.map (fun fc => fc.id)) ∧
     (deferredResolve true 2 (handleToolCall 1 sampleBatch freshToolState).1).1.pendingReport
       = none ∧
     (deferredResolve false 3
       (deferredResolve true 2 (handleToolCall 1 sampleBatch freshToolState).1).1).2 = []) :=
  ⟨⟨rfl, by decide⟩,
   tool_batch_one_response_each 1 2 3 true false sampleBatch freshToolState rfl (by decide)⟩

end Jarvis
